import Mathlib

/- Shallow embedding of the superneuromat simulation engine
   (src/superneuromat/neuromorphicmodel.py and src/superneuromat/numba_jit.py).

   Conventions of the embedding:
   * numpy float64 values are modelled by rationals; the special value
     `np.inf` (the default neuron leak, and a permitted threshold) is modelled
     by the extra constructor `Qinf.inf`.  IEEE arithmetic with infinities is
     reproduced where the source relies on it (the leak stage uses
     `s - inf = -inf` and `s + inf = +inf` inside `maximum`/`minimum`).
   * Python-level dynamic argument validation is modelled by a small value
     domain `PyVal` (int, float, None, non-numeric string) and `Except`;
     an error carries the model state at the moment of the raise, because
     `create_neuron` can raise in the middle of its append phase.
   * numpy arrays are modelled by functions out of `Fin n`; the spike train is
     a list of boolean vectors; the input-spike dictionary is an association
     list in insertion order, like a Python dict. -/

namespace SuperNeuroMat

/-- Rational extended with a positive infinity, modelling the numpy float64
values that the model may set to `np.inf` (neuron leak default, thresholds). -/
inductive Qinf where
  | inf : Qinf
  | fin (q : ℚ) : Qinf
deriving DecidableEq

/-- Finite value of a `Qinf` (infinity mapped to 0).  Used only where the
simulation layer consumes amplitudes that are finite in every claim. -/
def Qinf.getQ : Qinf → ℚ
  | .inf => 0
  | .fin q => q

/-- Comparison `x < 0` on a possibly-infinite float (`np.inf < 0` is false). -/
def Qinf.neg? : Qinf → Bool
  | .inf => false
  | .fin q => decide (q < 0)

/-- Python value reaching the validation layer: an int, a float (possibly
`np.inf`), `None`, or a non-numeric string. -/
inductive PyVal where
  | int (n : ℤ)
  | float (x : Qinf)
  | none
  | str
deriving DecidableEq

/-- Python exception classes raised by the validation layer. -/
inductive PyErr where
  | typeError (msg : String)
  | valueError (msg : String)
  | overflowError
deriving DecidableEq

/-- Python `isinstance(x, (int, float))`. -/
def isNumeric : PyVal → Bool
  | .int _ => true
  | .float _ => true
  | _ => false

/-- Python `float(x)`, the conversion applied when appending neuron
parameters; it raises TypeError on `None` and ValueError on a non-numeric
string. -/
def pyFloat : PyVal → Except PyErr Qinf
  | .int n => .ok (.fin n)
  | .float x => .ok x
  | .none => .error (.typeError "float() argument must be a string or a real number, not NoneType")
  | .str => .error (.valueError "could not convert string to float")

/-- Python `int(x)` truncation toward zero (the source only applies it to
values that already passed `is_intlike`). -/
def pyInt : PyVal → ℤ
  | .int n => n
  | .float (.fin q) => q.num.tdiv q.den
  | _ => 0

/-- Python `x < 0` on a value that already passed an `isinstance` check. -/
def pyNeg? : PyVal → Bool
  | .int n => decide (n < 0)
  | .float x => x.neg?
  | _ => false

/-- Raw numeric content of a validated int/float value (used where the source
appends the Python value itself, e.g. input spike amplitudes). -/
def pyQinf : PyVal → Qinf
  | .int n => .fin n
  | .float x => x
  | _ => .fin 0

/-- Source `is_intlike` (neuromorphicmodel.py lines 59-63): true for ints,
otherwise the test `x == int(x)`; the inner `int()` call itself raises
TypeError on `None`, ValueError on a non-numeric string and OverflowError on
`np.inf`. -/
def is_intlike : PyVal → Except PyErr Bool
  | .int _ => .ok true
  | .float (.fin q) => .ok (decide (q.den = 1))
  | .float .inf => .error .overflowError
  | .none => .error (.typeError "int() argument must be a string, a bytes-like object or a real number, not NoneType")
  | .str => .error (.valueError "invalid literal for int() with base 10")

/-- Input spike dictionary entry: the parallel `nids` and `values` lists kept
under one time key by `add_spike`. -/
abbrev SpikeEntry := List ℕ × List Qinf

/-- Input spike dictionary `self.input_spikes`: association list keyed by time
step, in insertion order like a Python dict. -/
abbrev SpikeDict := List (ℕ × SpikeEntry)

/-- Columnar model state from `NeuromorphicModel.__init__` (lines 150-194):
per-neuron parameter lists, per-synapse lists and the input spike schedule. -/
structure Model where
  neuron_thresholds : List Qinf
  neuron_leaks : List Qinf
  neuron_states : List Qinf
  neuron_reset_states : List Qinf
  neuron_refractory_periods : List ℤ
  neuron_refractory_periods_state : List ℤ
  pre_synaptic_neuron_ids : List ℤ
  post_synaptic_neuron_ids : List ℤ
  synaptic_weights : List PyVal
  synaptic_delays : List ℤ
  enable_stdp : List Bool
  input_spikes : SpikeDict
deriving DecidableEq

/-- Freshly constructed model: every list empty, no scheduled spikes. -/
def Model.empty : Model :=
  ⟨[], [], [], [], [], [], [], [], [], [], [], []⟩

/-- Source `num_neurons` property: length of the threshold list. -/
def Model.num_neurons (m : Model) : ℕ := m.neuron_thresholds.length

/-- Source `num_synapses` property: length of the presynaptic id list. -/
def Model.num_synapses (m : Model) : ℕ := m.pre_synaptic_neuron_ids.length

/-- Validation step `if not is_intlike(x): raise TypeError(msg)` followed by
`int(x)`; errors raised inside `is_intlike` propagate unchanged. -/
def checkIntlike (m : Model) (x : PyVal) (msg : String) : Except (PyErr × Model) ℤ :=
  match is_intlike x with
  | .error e => .error (e, m)
  | .ok true => .ok (pyInt x)
  | .ok false => .error (.typeError msg, m)

/-- Validation step `if not isinstance(x, (int, float)) or not is_intlike(x)`
(short-circuiting `or`) followed by `int(x)`, as used for synapse ids and
delays. -/
def checkIntArg (m : Model) (x : PyVal) (msg : String) : Except (PyErr × Model) ℤ :=
  if ¬ isNumeric x then .error (.typeError msg, m)
  else checkIntlike m x msg

/-- Append-phase conversion `float(x)`: on failure the error carries the
partially mutated model `cur`. -/
def appendFloat (cur : Model) (x : PyVal) : Except (PyErr × Model) Qinf :=
  match pyFloat x with
  | .ok v => .ok v
  | .error e => .error (e, cur)

/-- Source `create_neuron` (lines 335-409).  The checks run first, in source
order; the append phase then runs `float()` conversions as it appends, and
`reset_state` — which is never type-checked — can make `float()` raise after
`neuron_thresholds` and `neuron_leaks` have already been extended.  The error
branch carries the model state at the moment of the raise. -/
def create_neuron (m : Model) (threshold leak reset_state : PyVal)
    (refractory_period refractory_state initial_state : PyVal) :
    Except (PyErr × Model) (Model × ℕ) := do
  if ¬ isNumeric threshold then
    throw (.typeError "threshold must be int or float", m)
  if ¬ isNumeric leak then
    throw (.typeError "leak must be int or float", m)
  if pyNeg? leak then
    throw (.valueError "leak must be grater than or equal to zero", m)
  let rp ← checkIntlike m refractory_period "refractory_period must be int"
  if rp < 0 then
    throw (.valueError "refractory_period must be greater than or equal to zero", m)
  let rs ← checkIntlike m refractory_state "refractory_state must be int"
  if rs < 0 then
    throw (.valueError "refractory_state must be greater than or equal to zero", m)
  if ¬ isNumeric initial_state then
    throw (.typeError "initial_state must be int or float", m)
  let thv ← appendFloat m threshold
  let m1 := { m with neuron_thresholds := m.neuron_thresholds ++ [thv] }
  let lkv ← appendFloat m1 leak
  let m2 := { m1 with neuron_leaks := m1.neuron_leaks ++ [lkv] }
  let rsv ← appendFloat m2 reset_state
  let m3 := { m2 with neuron_reset_states := m2.neuron_reset_states ++ [rsv] }
  let m4 := { m3 with neuron_refractory_periods := m3.neuron_refractory_periods ++ [rp] }
  let m5 := { m4 with neuron_refractory_periods_state := m4.neuron_refractory_periods_state ++ [rs] }
  let inv ← appendFloat m5 initial_state
  let m6 := { m5 with neuron_states := m5.neuron_states ++ [inv] }
  return (m6, m6.num_neurons - 1)

/-- Zero-argument call `self.create_neuron()` used for relay neurons in
`create_synapse`: all parameters at their defaults
(threshold `0.0`, leak `np.inf`, reset_state `0.0`, refractory_period `0`,
refractory_state `0`, initial_state `0.0`).  This call cannot fail. -/
def create_neuron_default (m : Model) : Model × ℕ :=
  match create_neuron m (.float (.fin 0)) (.float .inf) (.float (.fin 0))
      (.int 0) (.int 0) (.float (.fin 0)) with
  | .ok r => r
  | .error _ => (m, 0)

/-- The `delay == 1` branch of `create_synapse` (lines 488-493): append one
row to each synapse list, with the literal delay value 1. -/
def appendSynapse (m : Model) (pre post : ℤ) (w : PyVal) (stdp : Bool) : Model :=
  { m with
    pre_synaptic_neuron_ids := m.pre_synaptic_neuron_ids ++ [pre]
    post_synaptic_neuron_ids := m.post_synaptic_neuron_ids ++ [post]
    synaptic_weights := m.synaptic_weights ++ [w]
    synaptic_delays := m.synaptic_delays ++ [1]
    enable_stdp := m.enable_stdp ++ [stdp] }

/-- The `delay > 1` branch of `create_synapse` (lines 495-501): `k` is the
number of relay neurons still to insert.  Each loop iteration creates a relay
neuron with `create_neuron()` defaults and a unit-delay weight-1 synapse from
the current presynaptic end into it (these inner `create_synapse` calls always
take the `delay == 1` branch with default weight 1.0 and `stdp_enabled`
False); the final weighted synapse closes the chain into `post`. -/
def chainSynapse (m : Model) (pre post : ℤ) (w : PyVal) (stdp : Bool) : ℕ → Model
  | 0 => appendSynapse m pre post w stdp
  | k + 1 =>
    let r := create_neuron_default m
    let m1 := appendSynapse r.1 pre (r.2 : ℤ) (.float (.fin 1)) false
    chainSynapse m1 (r.2 : ℤ) post w stdp k

/-- Source `create_synapse` (lines 411-504): validation in source order, then
either the direct append (`delay == 1`) or the relay chain (`delay > 1`);
returns the new model together with `num_synapses - 1`. -/
def create_synapse (m : Model) (pre_id post_id weight delay : PyVal)
    (stdp_enabled : Bool) : Except (PyErr × Model) (Model × ℕ) := do
  let pre ← checkIntArg m pre_id "pre_id must be int"
  let post ← checkIntArg m post_id "post_id must be int"
  if ¬ isNumeric weight then
    throw (.typeError "weight must be a float", m)
  let d ← checkIntArg m delay "delay must be an integer"
  if pre < 0 then
    throw (.valueError "pre_id must be greater than or equal to zero", m)
  if post < 0 then
    throw (.valueError "post_id must be greater than or equal to zero", m)
  if d ≤ 0 then
    throw (.valueError "delay must be greater than or equal to 1", m)
  let m2 := chainSynapse m pre post weight stdp_enabled (d - 1).toNat
  return (m2, m2.num_synapses - 1)

/-- Dictionary update of `add_spike` (lines 554-562): append to the `nids`
and `values` lists of an existing time key, or insert a fresh entry at the
end. -/
def dictAdd (d : SpikeDict) (t : ℕ) (nid : ℕ) (v : Qinf) : SpikeDict :=
  if (d.lookup t).isSome then
    d.map fun kv => if kv.1 = t then (kv.1, (kv.2.1 ++ [nid], kv.2.2 ++ [v])) else kv
  else d ++ [(t, ([nid], [v]))]

/-- Source `add_spike` (lines 506-562): validation in source order (`time`
int-like, `neuron_id` int-like, `value` numeric, then the two nonnegativity
checks), followed by the dictionary update. -/
def add_spike (m : Model) (time neuron_id value : PyVal) :
    Except (PyErr × Model) Model := do
  let t ← checkIntlike m time "time must be int"
  let nid ← checkIntlike m neuron_id "neuron_id must be int"
  if ¬ isNumeric value then
    throw (.typeError "value must be int or float", m)
  if t < 0 then
    throw (.valueError "time must be greater than or equal to zero", m)
  if nid < 0 then
    throw (.valueError "neuron_id must be greater than or equal to zero", m)
  return { m with input_spikes := dictAdd m.input_spikes t.toNat nid.toNat (pyQinf value) }

/-- Source `consume_input_spikes` (lines 779-781): keep the entries scheduled
at or after `time_steps`, re-keyed by subtracting `time_steps`. -/
def consume_input_spikes (d : SpikeDict) (time_steps : ℕ) : SpikeDict :=
  d.filterMap fun kv => if time_steps ≤ kv.1 then some (kv.1 - time_steps, kv.2) else none

/-- Cell amplitude from one dictionary entry, as written by the inner loop of
`setup_input_spikes`: later `(nid, value)` pairs overwrite earlier ones. -/
def entryAmp (e : SpikeEntry) (i : ℕ) : ℚ :=
  (e.1.zip e.2).foldl (fun acc nv => if nv.1 = i then nv.2.getQ else acc) 0

/-- Source `setup_input_spikes` (lines 771-777): the dense
`(time_steps + 1) × n` input matrix, dictionary entries beyond `time_steps`
skipped. -/
def setup_input_spikes (n : ℕ) (d : SpikeDict) (time_steps : ℕ) :
    ℕ → Fin n → ℚ :=
  fun t i =>
    if t ≤ time_steps then
      match d.lookup t with
      | some e => entryAmp e i.val
      | Option.none => 0
    else 0

/-- Numeric value of a spike flag (int8 0/1 in the source). -/
def b2q (s : Bool) : ℚ := if s then 1 else 0

/-- Leak stage shared by `simulate_cpu` (lines 916-926) and `apply_leak_jit`
(numba_jit.py lines 5-19): a state strictly above the reset state becomes
`max(s - leak, reset)`, strictly below becomes `min(s + leak, reset)`, and a
state equal to reset is untouched.  With `leak = np.inf` IEEE arithmetic gives
`s - inf = -inf` and `s + inf = +inf`, so both clamps land exactly on the
reset state. -/
def applyLeak (leak : Qinf) (s r : ℚ) : ℚ :=
  if r < s then
    match leak with
    | .inf => r
    | .fin l => max (s - l) r
  else if s < r then
    match leak with
    | .inf => r
    | .fin l => min (s + l) r
  else s

/-- Fire comparison `internal_state > threshold` (strict), with a possibly
infinite threshold (`np.inf` never fires). -/
def fires (s : ℚ) (th : Qinf) : Bool :=
  match th with
  | .inf => false
  | .fin t => decide (t < s)

/-- Per-neuron parameter arrays materialized by `_setup` (lines 715-721). -/
structure LifParams (n : ℕ) where
  thresholds : Fin n → Qinf
  leaks : Fin n → Qinf
  reset_states : Fin n → ℚ
  refractory_periods_original : Fin n → ℚ

/-- Mutable per-tick arrays: internal states, previous-tick spike flags, and
refractory countdowns (stored as float64 in the source). -/
structure LifState (n : ℕ) where
  states : Fin n → ℚ
  spikes : Fin n → Bool
  refrac : Fin n → ℚ

/-- Leak applied to the whole state vector (simulate_cpu lines 916-926). -/
def leak_stage {n : ℕ} (p : LifParams n) (states : Fin n → ℚ) : Fin n → ℚ :=
  fun i => applyLeak (p.leaks i) (states i) (p.reset_states i)

/-- Integrate stage (simulate_cpu line 936): add the external input for this
tick and the presynaptic contribution `weights.T @ spikes` of the
previous-tick fired vector. -/
def integrate_stage {n : ℕ} (weights : Fin n → Fin n → ℚ) (input : Fin n → ℚ)
    (prev : Fin n → Bool) (states : Fin n → ℚ) : Fin n → ℚ :=
  fun i => states i + input i + ∑ j, weights j i * b2q (prev j)

/-- One LIF tick of the reference cpu backend (simulate_cpu lines 916-953):
leak, integrate, strict-threshold fire, refractory gate (force spike to 0 and
decrement while the countdown is positive), refractory re-arm for post-gate
spikers, and state reset for post-gate spikers. -/
def lif_cpu {n : ℕ} (p : LifParams n) (weights : Fin n → Fin n → ℚ)
    (input : Fin n → ℚ) (st : LifState n) : LifState n :=
  let s2 := integrate_stage weights input st.spikes (leak_stage p st.states)
  let raw := fun i => fires (s2 i) (p.thresholds i)
  let sp := fun i => if 0 < st.refrac i then false else raw i
  let r1 := fun i => if 0 < st.refrac i then st.refrac i - 1 else st.refrac i
  let r2 := fun i => if sp i then p.refractory_periods_original i else r1 i
  let s3 := fun i => if sp i then p.reset_states i else s2 i
  ⟨s3, sp, r2⟩

/-- Source `apply_leak_jit` (numba_jit.py lines 5-19). -/
def apply_leak_jit {n : ℕ} (states reset_states : Fin n → ℚ)
    (leaks : Fin n → Qinf) : Fin n → ℚ :=
  fun i => applyLeak (leaks i) (states i) (reset_states i)

/-- Source `lif_jit` (numba_jit.py lines 22-69), parameters in source order.
The four trailing parameters `delays`, `delayed_synapses`, `synaptic_delaysT`
and `delayed_spikes` are declared (annotated `None`) but never used by the
body; they are modelled as `Unit`.  The returned triple is the in-place
modified `(states, spikes, refractory_periods)`. -/
def lif_jit {n : ℕ} (tick : ℕ) (input_spikes : ℕ → Fin n → ℚ)
    (spikes : Fin n → Bool) (states : Fin n → ℚ)
    (thresholds leaks : Fin n → Qinf) (reset_states : Fin n → ℚ)
    (refractory_periods refractory_periods_original : Fin n → ℚ)
    (weights : Fin n → Fin n → ℚ)
    (delays delayed_synapses synaptic_delaysT delayed_spikes : Unit) :
    LifState n :=
  let s1 := apply_leak_jit states reset_states leaks
  let s2 := fun i => s1 i + input_spikes tick i + ∑ j, weights j i * b2q (spikes j)
  let raw := fun i => fires (s2 i) (thresholds i)
  let sp := fun i => if 0 < refractory_periods i then false else raw i
  let r1 := fun i => if 0 < refractory_periods i then refractory_periods i - 1
    else refractory_periods i
  let r2 := fun i => if sp i then refractory_periods_original i else r1 i
  let s3 := fun i => if sp i then reset_states i else s2 i
  ⟨s3, sp, r2⟩

/-- Modelled from the spec: the gpu backend per-tick kernels
(`gpu.post_synaptic` and `gpu.lif` of the gpu module, imported by
`simulate_gpu` but not present under src) following section 4.2 stages 1-6:
clamped leak toward reset, integrate previous-tick spikes plus external
input, strict-threshold fire, refractory gate with decrement, refractory
re-arm, reset. -/
def gpu_lif_modelled {n : ℕ} (p : LifParams n) (weights : Fin n → Fin n → ℚ)
    (input : Fin n → ℚ) (st : LifState n) : LifState n :=
  let leaked := fun i => applyLeak (p.leaks i) (st.states i) (p.reset_states i)
  let integ := fun i => leaked i + input i + ∑ j, weights j i * b2q (st.spikes j)
  let rawFire := fun i => fires (integ i) (p.thresholds i)
  let gated := fun i => if 0 < st.refrac i then false else rawFire i
  let counted := fun i => if 0 < st.refrac i then st.refrac i - 1 else st.refrac i
  let armed := fun i => if gated i then p.refractory_periods_original i else counted i
  let reset := fun i => if gated i then p.reset_states i else integ i
  ⟨reset, gated, armed⟩

/-- All-false spike vector, the `getD` default for spike-train indexing. -/
def zf (n : ℕ) : Fin n → Bool := fun _ => false

/-- STDP weight update of the reference cpu backend (simulate_cpu lines
958-975), applied after the new spike vector has been appended to the train:
with `t = min(stdp_time_steps, len(spike_train) - 1)` positive and STDP
active, the positive update adds
`sum_j AposRev[j] * outer(train[L-1-t+j], train[L-1])` times the mask, with
the coefficient list `Apos[0:t]` reversed, and the negative update does the
same on the complement `1 - outer(...)` with `Aneg[0:t]` reversed. -/
def stdp_cpu {n : ℕ} (K : ℕ) (Apos Aneg : List ℚ) (doPos doNeg : Bool)
    (mask : Fin n → Fin n → ℚ) (train : List (Fin n → Bool))
    (W : Fin n → Fin n → ℚ) : Fin n → Fin n → ℚ :=
  let L := train.length
  let t := min K (L - 1)
  if (doPos || doNeg) && decide (0 < t) then
    let now := train.getD (L - 1) (zf n)
    let upd : ℕ → Fin n → Fin n → ℚ := fun j p q =>
      b2q (train.getD (L - 1 - t + j) (zf n) p) * b2q (now q)
    let aposRev := (Apos.take t).reverse
    let anegRev := (Aneg.take t).reverse
    let W1 := if doPos then
        fun p q => W p q + (∑ j ∈ Finset.range t, aposRev.getD j 0 * upd j p q) * mask p q
      else W
    if doNeg then
      fun p q => W1 p q + (∑ j ∈ Finset.range t, anegRev.getD j 0 * (1 - upd j p q)) * mask p q
    else W1
  else W

/-- STDP update as the spec states it (section 4.3): for each lag `i` below
`t_eff = min(K, logged ticks - 1)`, with lag 0 the immediately preceding
tick, add `Apos[i] * coincidence * mask` when the positive update is enabled
and `Aneg[i] * (1 - coincidence) * mask` when the negative update is enabled,
where `coincidence p q = spiked_at_lag_i p * spiked_now q`. -/
def stdp_spec {n : ℕ} (K : ℕ) (Apos Aneg : List ℚ) (doPos doNeg : Bool)
    (mask : Fin n → Fin n → ℚ) (train : List (Fin n → Bool))
    (W : Fin n → Fin n → ℚ) : Fin n → Fin n → ℚ :=
  let L := train.length
  let teff := min K (L - 1)
  fun p q => W p q +
    ∑ i ∈ Finset.range teff,
      ((if doPos then
          Apos.getD i 0 * (b2q (train.getD (L - 2 - i) (zf n) p) * b2q (train.getD (L - 1) (zf n) q)) * mask p q
        else 0)
       + (if doNeg then
          Aneg.getD i 0 * (1 - b2q (train.getD (L - 2 - i) (zf n) p) * b2q (train.getD (L - 1) (zf n) q)) * mask p q
        else 0))

/-- Working state carried through the simulate_cpu tick loop. -/
structure SimState (n : ℕ) where
  lif : LifState n
  weights : Fin n → Fin n → ℚ
  train : List (Fin n → Bool)

/-- STDP configuration materialized by `_setup` (lines 725-736): the mask of
learning-enabled synapses, the kernel window `stdp_time_steps`, both
coefficient lists, and the `_do_positive_update` / `_do_negative_update`
flags. -/
structure SimParams (n : ℕ) extends LifParams n where
  mask : Fin n → Fin n → ℚ
  K : ℕ
  Apos : List ℚ
  Aneg : List ℚ
  doPos : Bool
  doNeg : Bool

/-- One full iteration of the simulate_cpu tick loop (lines 911-975): LIF
stages, spike-train append, then the STDP update on the extended train. -/
def simulate_cpu_tick {n : ℕ} (p : SimParams n) (input : Fin n → ℚ)
    (st : SimState n) : SimState n :=
  let lf := lif_cpu p.toLifParams st.weights input st.lif
  let train2 := st.train ++ [lf.spikes]
  let W2 := stdp_cpu p.K p.Apos p.Aneg p.doPos p.doNeg p.mask train2 st.weights
  ⟨lf, W2, train2⟩

/-- Tick loop `for tick in range(time_steps)`: first argument is the current
tick index, second the number of remaining ticks. -/
def simulate_cpu_go {n : ℕ} (p : SimParams n) (inp : ℕ → Fin n → ℚ) :
    ℕ → ℕ → SimState n → SimState n
  | _, 0, st => st
  | tick, k + 1, st =>
    simulate_cpu_go p inp (tick + 1) k (simulate_cpu_tick p (inp tick) st)

/-- Source `_setup` lines 742-745: the previous-tick fired vector starts as
the trailing entry of the logged spike train, or all zeros if the train is
empty. -/
def setup_spikes (n : ℕ) (train : List (Fin n → Bool)) : Fin n → Bool :=
  (train.getLast?).getD (zf n)

/-- Source `simulate_cpu` (lines 904-979) without manual setup: `_setup`
derives the previous-spike vector from the logged train, then the tick loop
runs; the input-spike consumption performed afterwards is modelled separately
by `consume_input_spikes`. -/
def simulate_cpu {n : ℕ} (p : SimParams n) (states refrac : Fin n → ℚ)
    (weights : Fin n → Fin n → ℚ) (train : List (Fin n → Bool))
    (inp : ℕ → Fin n → ℚ) (time_steps : ℕ) : SimState n :=
  simulate_cpu_go p inp 0 time_steps
    ⟨⟨states, setup_spikes n train, refrac⟩, weights, train⟩

/-- Source: the body of `simulate_gpu` (lines 981-1064) contains no statement
that reads or writes `self.input_spikes`; after the call the schedule equals
the schedule before the call. -/
def simulate_gpu_input_spikes_after (d : SpikeDict) (time_steps : ℕ) : SpikeDict := d

/-- Tail of `simulate_cpu` and `simulate_cpu_jit` (lines 900-902 and
977-979): without manual setup, the schedule is consumed. -/
def simulate_cpu_input_spikes_after (d : SpikeDict) (time_steps : ℕ)
    (manual_setup : Bool) : SpikeDict :=
  if manual_setup then d else consume_input_spikes d time_steps

/-- Number of parameters in the definition of `lif_jit`
(numba_jit.py lines 22-38): tick, input_spikes, spikes, states, thresholds,
leaks, reset_states, refractory_periods, refractory_periods_original,
weights, delays, delayed_synapses, synaptic_delaysT, delayed_spikes — none
with a default value. -/
def lif_jit_param_count : ℕ := 14

/-- Number of arguments `simulate_cpu_jit` passes in its call to `lif_jit`
(neuromorphicmodel.py lines 868-879): tick, _input_spikes, _spikes,
_internal_states, _neuron_thresholds, _neuron_leaks, _neuron_reset_states,
_neuron_refractory_periods, _neuron_refractory_periods_original, _weights. -/
def simulate_cpu_jit_lif_arg_count : ℕ := 10

/-- Source `resize_vec` (lines 66-73).  Its second parameter is named `len`,
shadowing the Python builtin, so the very first comparison `len(a) < len`
calls an int object; every call raises TypeError before reaching either
branch, whatever the arguments are. -/
def resize_vec (a : List ℚ) (length : ℕ) : Except PyErr (List ℚ) :=
  .error (.typeError "int object is not callable")

/-- STDP kernel state read and written by the `apos` / `aneg` property
setters. -/
structure StdpKernels where
  stdp_Apos : List ℚ
  stdp_Aneg : List ℚ
  stdp_positive_update : Bool
  stdp_negative_update : Bool
deriving DecidableEq

/-- Source `apos` setter (lines 568-575): when the negative update is enabled
and the incoming length differs from `_stdp_Aneg`, both vectors are passed
through `resize_vec` toward the common maximum length before `_stdp_Apos` is
assigned. -/
def set_apos (m : StdpKernels) (value : List ℚ) : Except PyErr StdpKernels := do
  if m.stdp_negative_update && value.length != m.stdp_Aneg.length then
    let nmax := max value.length m.stdp_Aneg.length
    let aneg2 ← resize_vec m.stdp_Aneg nmax
    let value2 ← resize_vec value nmax
    return { m with stdp_Aneg := aneg2, stdp_Apos := value2 }
  else
    return { m with stdp_Apos := value }

/-- Refractory-counter contract of one tick, for neuron `i`: the counter
stays nonnegative; while it is strictly positive the spike is forced off and
the counter decrements by one; a post-gate spike re-arms the counter to the
refractory period; otherwise the counter is untouched. -/
def refrac_contract {n : ℕ} (st : LifState n) (period : ℚ) (out : LifState n)
    (i : Fin n) : Prop :=
  0 ≤ out.refrac i
  ∧ (0 < st.refrac i → out.spikes i = false ∧ out.refrac i = st.refrac i - 1)
  ∧ (out.spikes i = true → out.refrac i = period)
  ∧ (out.spikes i = false → ¬ 0 < st.refrac i → out.refrac i = st.refrac i)

/-- One-neuron parameter set used by concrete instances: threshold 0, no-leak
`np.inf`, reset state 5, refractory period 0. -/
def p1 : LifParams 1 :=
  { thresholds := fun _ => .fin 0
    leaks := fun _ => .inf
    reset_states := fun _ => 5
    refractory_periods_original := fun _ => 0 }

/-- One-neuron tick state: internal state 0, no previous spike, refractory
countdown 2. -/
def st1 : LifState 1 := ⟨fun _ => 0, fun _ => false, fun _ => 2⟩

/-- The construction sequence of the refractory test: one neuron with
threshold 0 and refractory period 2 (other parameters at their defaults),
then input spikes of amplitude 1 at tick 1, 3 at tick 2, 4 at tick 3 and 1 at
tick 4. -/
def c2_build : Except (PyErr × Model) Model := do
  let r ← create_neuron Model.empty (.int 0) (.float .inf) (.float (.fin 0))
    (.int 2) (.int 0) (.float (.fin 0))
  let m1 ← add_spike r.1 (.int 1) (.int 0) (.int 1)
  let m2 ← add_spike m1 (.int 2) (.int 0) (.int 3)
  let m3 ← add_spike m2 (.int 3) (.int 0) (.int 4)
  add_spike m3 (.int 4) (.int 0) (.int 1)

/-- The model state that the construction sequence above should produce. -/
def c2_model : Model :=
  { Model.empty with
    neuron_thresholds := [.fin 0]
    neuron_leaks := [.inf]
    neuron_states := [.fin 0]
    neuron_reset_states := [.fin 0]
    neuron_refractory_periods := [2]
    neuron_refractory_periods_state := [0]
    input_spikes := [(1, ([0], [.fin 1])), (2, ([0], [.fin 3])),
                     (3, ([0], [.fin 4])), (4, ([0], [.fin 1]))] }

/-- Simulation parameters derived from `c2_model` by `_setup`: one neuron
with threshold 0, leak `np.inf`, reset 0, refractory period 2; STDP inactive
(no synapse has learning enabled, so `_do_positive_update` and
`_do_negative_update` are both false and `stdp_time_steps` is 0). -/
def c2_params : SimParams 1 :=
  { thresholds := fun _ => .fin 0
    leaks := fun _ => .inf
    reset_states := fun _ => 0
    refractory_periods_original := fun _ => 2
    mask := fun _ _ => 0
    K := 0
    Apos := []
    Aneg := []
    doPos := false
    doNeg := false }

/-- A `create_neuron` call whose `reset_state` argument is `None` and whose
other arguments are valid: the only parameter the source never type-checks. -/
def c7_failing : Except (PyErr × Model) (Model × ℕ) :=
  create_neuron Model.empty (.int 0) (.float .inf) .none (.int 0) (.int 0)
    (.float (.fin 0))

/-- Reduction of `Except` bind on a success value, used to evaluate the
validation chains symbolically. -/
theorem ok_bind {ε α β : Type} (a : α) (f : α → Except ε β) :
    (Except.ok a : Except ε α) >>= f = f a := rfl

/-- The infinite-leak clamp lands exactly on the reset state. -/
theorem applyLeak_inf (s r : ℚ) : applyLeak .inf s r = r := by
  unfold applyLeak
  by_cases h1 : r < s
  · simp [h1]
  · by_cases h2 : s < r
    · simp [h1, h2]
    · simp [h1, h2]
      exact le_antisymm (not_lt.mp h1) (not_lt.mp h2)

/-- C1: the per-tick LIF update of the compiled jit backend computes exactly
the same states, spikes and refractory counters as the reference cpu backend
for every input — but `simulate_cpu_jit` passes 10 arguments to `lif_jit`,
which declares 14 parameters without defaults, so the jit backend raises a
TypeError before any tick executes instead of producing the matching spike
train the claim asserts. -/
theorem c1_jit_cpu_tick_equiv_and_arity :
    simulate_cpu_jit_lif_arg_count ≠ lif_jit_param_count ∧
    ∀ (n : ℕ) (p : LifParams n) (weights : Fin n → Fin n → ℚ)
      (inp : ℕ → Fin n → ℚ) (tick : ℕ) (st : LifState n),
      lif_jit tick inp st.spikes st.states p.thresholds p.leaks p.reset_states
        st.refrac p.refractory_periods_original weights () () () ()
        = lif_cpu p weights (inp tick) st :=
  ⟨by decide, fun n p weights inp tick st => rfl⟩

/-- C5: `consume_input_spikes` re-keys exactly the entries scheduled at or
after the consumed tick count (lookup of `k` afterwards equals lookup of
`k + T` before), which is what the cpu and jit backends apply — but the gpu
backend never consumes: at the failing input, a spike scheduled at tick 0
survives a `simulate_gpu` call unchanged, while consumption would have
removed it. -/
theorem c5_input_consumption :
    (∀ (d : SpikeDict) (T k : ℕ),
        (consume_input_spikes d T).lookup k = d.lookup (k + T)) ∧
    simulate_gpu_input_spikes_after [(0, ([0], [Qinf.fin 1]))] 1
      = [(0, ([0], [Qinf.fin 1]))] ∧
    consume_input_spikes [(0, ([0], [Qinf.fin 1]))] 1 = [] ∧
    ([(0, ([0], [Qinf.fin 1]))] : SpikeDict) ≠ [] := by
  refine ⟨?_, rfl, rfl, by decide⟩
  intro d T k
  induction d with
  | nil => simp [consume_input_spikes]
  | cons hd tl ih =>
    obtain ⟨t, v⟩ := hd
    simp only [consume_input_spikes, List.filterMap_cons]
    by_cases h : T ≤ t
    · rw [if_pos h]
      by_cases hkk : k = t - T
      · have hk2 : k + T = t := by omega
        subst hkk
        simp [List.lookup, hk2]
      · have hk2 : k + T ≠ t := by omega
        simpa [List.lookup, show (k == t - T) = false from beq_eq_false_iff_ne.mpr hkk,
          show (k + T == t) = false from beq_eq_false_iff_ne.mpr hk2,
          consume_input_spikes] using ih
    · rw [if_neg h]
      have hk2 : k + T ≠ t := by omega
      simpa [List.lookup, show (k + T == t) = false from beq_eq_false_iff_ne.mpr hk2,
        consume_input_spikes] using ih

/-- C6: for a neuron with leak `np.inf` and a finite reset state, on a tick
with no external input and zero presynaptic contribution, the internal state
equals the reset state at the end of the tick: the leak stage snaps it there,
integration adds nothing, and the reset stage can only write the same reset
state again. -/
theorem c6_infinite_leak_reset :
    ∀ (n : ℕ) (p : LifParams n) (weights : Fin n → Fin n → ℚ)
      (input : Fin n → ℚ) (st : LifState n) (i : Fin n),
      p.leaks i = .inf → input i = 0 →
      (∑ j, weights j i * b2q (st.spikes j)) = 0 →
      (lif_cpu p weights input st).states i = p.reset_states i := by
  intro n p W input st i hleak hin hsum
  have hs2 : integrate_stage W input st.spikes (leak_stage p st.states) i
      = p.reset_states i := by
    unfold integrate_stage leak_stage
    rw [hin, hsum, hleak, applyLeak_inf]
    ring
  show (lif_cpu p W input st).states i = p.reset_states i
  unfold lif_cpu
  dsimp only
  rw [hs2]
  exact ite_self _

/-- Witness for C6 at a concrete one-neuron instance. -/
theorem c6_infinite_leak_reset_witness :
    p1.leaks 0 = Qinf.inf ∧
    (lif_cpu p1 (fun _ _ => 0) (fun _ => 0) st1).states 0 = p1.reset_states 0 :=
  ⟨rfl, c6_infinite_leak_reset 1 p1 (fun _ _ => 0) (fun _ => 0) st1 0 rfl rfl (by simp)⟩

/-- C7: the claim that every invalid `create_neuron` / `create_synapse` /
`add_spike` call leaves the model fully unchanged fails on the code:
`create_neuron` never type-checks `reset_state`, and at the failing input
(valid arguments except `reset_state = None`) the `float(reset_state)`
conversion raises a TypeError only after `neuron_thresholds` and
`neuron_leaks` have already been appended, leaving the neuron arrays with
inconsistent lengths. -/
theorem c7_create_neuron_partial_mutation :
    c7_failing = .error
      (.typeError "float() argument must be a string or a real number, not NoneType",
        { Model.empty with
            neuron_thresholds := [.fin 0]
            neuron_leaks := [.inf] }) ∧
    ({ Model.empty with
        neuron_thresholds := [Qinf.fin 0]
        neuron_leaks := [Qinf.inf] } : Model) ≠ Model.empty :=
  ⟨rfl, by decide⟩

/-- C8: the claim that assigning a mismatched-length kernel through the
`apos` setter resizes both vectors to their common maximum length fails on
the code: `resize_vec` shadows the builtin `len` with its int parameter, so
the setter raises a TypeError at the failing input (negative update enabled,
`_stdp_Aneg` empty, assigned value of length 1) instead of resizing. -/
theorem c8_apos_setter_raises :
    set_apos ⟨[], [], true, true⟩ [1]
      = .error (.typeError "int object is not callable") := rfl

/-- C9: on every backend per-tick update (reference cpu, jit kernel, and the
spec-modelled gpu kernel), a neuron whose refractory counter starts at a
nonnegative integer keeps a nonnegative counter: the counter is decremented
exactly when strictly positive (with the spike forced off), is set to the
nonnegative refractory period exactly when the neuron spikes after the gate,
and is untouched otherwise. -/
theorem c9_refractory_invariant :
    ∀ (n : ℕ) (p : LifParams n) (W : Fin n → Fin n → ℚ) (input : Fin n → ℚ)
      (inp : ℕ → Fin n → ℚ) (tick : ℕ) (st : LifState n) (i : Fin n),
      (∃ k : ℕ, st.refrac i = (k : ℚ)) →
      0 ≤ p.refractory_periods_original i →
      refrac_contract st (p.refractory_periods_original i) (lif_cpu p W input st) i
      ∧ refrac_contract st (p.refractory_periods_original i)
          (lif_jit tick inp st.spikes st.states p.thresholds p.leaks p.reset_states
            st.refrac p.refractory_periods_original W () () () ()) i
      ∧ refrac_contract st (p.refractory_periods_original i)
          (gpu_lif_modelled p W input st) i := by
  intro n p W input inp tick st i hint hp
  obtain ⟨k, hk⟩ := hint
  have key : ∀ (v : Fin n → ℚ),
      refrac_contract st (p.refractory_periods_original i) (lif_cpu p W v st) i := by
    intro v
    unfold refrac_contract lif_cpu
    dsimp only
    by_cases hc : 0 < st.refrac i
    · have h1 : 1 ≤ st.refrac i := by
        rw [hk] at hc ⊢
        exact_mod_cast Nat.one_le_iff_ne_zero.mpr
          (fun h0 => by simp [h0] at hc)
      refine ⟨?_, fun _ => ⟨by simp [hc], by simp [hc]⟩, ?_, ?_⟩
      · simp only [hc, if_true, Bool.false_eq_true, if_false]
        linarith
      · intro habs
        simp [hc] at habs
      · intro _ habs
        exact absurd hc habs
    · have h0 : 0 ≤ st.refrac i := by
        rw [hk]
        positivity
      by_cases hr : fires (integrate_stage W v st.spikes (leak_stage p st.states) i)
          (p.thresholds i) = true
      · refine ⟨?_, fun habs => absurd habs hc, ?_, ?_⟩
        · simp only [hc, if_false, hr, if_true]
          exact hp
        · intro _
          simp [hc, hr]
        · intro habs
          simp [hc, hr] at habs
      · rw [Bool.not_eq_true] at hr
        refine ⟨?_, fun habs => absurd habs hc, ?_, ?_⟩
        · simp only [hc, if_false, hr]
          exact h0
        · intro habs
          simp [hc, hr] at habs
        · intro _ _
          simp [hc, hr]
  exact ⟨key input, key (inp tick), key input⟩

/-- Witness for C9 at a concrete one-neuron instance with counter 2. -/
theorem c9_refractory_invariant_witness :
    (∃ k : ℕ, st1.refrac 0 = (k : ℚ)) ∧
    refrac_contract st1 (p1.refractory_periods_original 0)
      (lif_cpu p1 (fun _ _ => 0) (fun _ => 0) st1) 0 :=
  ⟨⟨2, by norm_num [st1]⟩,
    (c9_refractory_invariant 1 p1 (fun _ _ => 0) (fun _ => 0) (fun _ _ => 0) 0 st1 0
      ⟨2, by norm_num [st1]⟩ (by norm_num [p1])).1⟩

set_option maxHeartbeats 4000000 in
/-- C2: the model with a single neuron of threshold 0 and refractory period 2
(all other parameters default), with input spikes of amplitude 1 at tick 1,
3 at tick 2, 4 at tick 3 and 1 at tick 4, built through `create_neuron` and
`add_spike`, simulated for 10 ticks on the reference cpu backend, produces
exactly the spike train [0,1,0,0,1,0,0,0,0,0]. -/
theorem c2_refractory_spike_train :
    c2_build = .ok c2_model ∧
    (simulate_cpu c2_params (fun _ => 0) (fun _ => 0) (fun _ _ => 0) []
        (setup_input_spikes 1 c2_model.input_spikes 10) 10).train.map (fun v => v 0)
      = [false, true, false, false, true, false, false, false, false, false] := by
  refine ⟨rfl, ?_⟩
  have hin : setup_input_spikes 1 c2_model.input_spikes 10
      = (fun t _ => if t = 1 then 1 else if t = 2 then 3 else if t = 3 then 4
          else if t = 4 then 1 else 0) := by
    funext t i
    fin_cases i
    by_cases h1 : t = 1
    · subst h1; rfl
    · by_cases h2 : t = 2
      · subst h2; rfl
      · by_cases h3 : t = 3
        · subst h3; rfl
        · by_cases h4 : t = 4
          · subst h4; rfl
          · simp only [setup_input_spikes, c2_model, Model.empty, List.lookup,
              beq_eq_false_iff_ne.mpr h1, beq_eq_false_iff_ne.mpr h2,
              beq_eq_false_iff_ne.mpr h3, beq_eq_false_iff_ne.mpr h4,
              h1, h2, h3, h4, if_false, ite_self]
  rw [hin]
  norm_num [simulate_cpu, simulate_cpu_go, simulate_cpu_tick, lif_cpu,
    integrate_stage, leak_stage, applyLeak, fires, b2q, stdp_cpu, setup_spikes,
    zf, c2_params, Fin.sum_univ_one]

/-- C10: when `simulate` runs without manual setup, `_setup` seeds the
previous-tick fired vector with the last logged spike-train entry (the zero
vector when the train is empty), the first tick of the call consumes exactly
that vector, and its integrate stage adds `weights.T @ spike_train[-1]`, so
neurons that fired on the final tick of a previous call deliver their
synaptic contributions on the first tick of the next call. -/
theorem c10_carryover_spikes :
    ∀ (n : ℕ) (p : SimParams n) (states refrac : Fin n → ℚ)
      (weights : Fin n → Fin n → ℚ) (train : List (Fin n → Bool))
      (inp : ℕ → Fin n → ℚ) (T : ℕ),
      (train = [] → setup_spikes n train = zf n)
      ∧ (∀ h : train ≠ [], setup_spikes n train = train.getLast h)
      ∧ (0 < T → simulate_cpu p states refrac weights train inp T =
          simulate_cpu_go p inp 1 (T - 1)
            (simulate_cpu_tick p (inp 0)
              ⟨⟨states, setup_spikes n train, refrac⟩, weights, train⟩))
      ∧ (∀ (s : Fin n → ℚ) (i : Fin n) (h : train ≠ []),
          integrate_stage weights (inp 0) (setup_spikes n train) s i
            = s i + inp 0 i
              + ∑ j, weights j i * (if train.getLast h j then 1 else 0)) := by
  intro n p states refrac weights train inp T
  have hlast : ∀ h : train ≠ [], setup_spikes n train = train.getLast h := by
    intro h
    unfold setup_spikes
    rw [List.getLast?_eq_getLast train h]
    rfl
  refine ⟨?_, hlast, ?_, ?_⟩
  · intro h
    subst h
    rfl
  · intro hT
    obtain ⟨k, rfl⟩ : ∃ k, T = k + 1 := ⟨T - 1, by omega⟩
    rfl
  · intro s i h
    unfold integrate_stage
    rw [hlast h]
    rfl

/-- Witness for C10 at a concrete one-neuron instance with a non-empty
logged train and one tick. -/
theorem c10_carryover_spikes_witness :
    simulate_cpu c2_params (fun _ => 0) (fun _ => 0) (fun _ _ => 0)
        [fun _ => true] (fun _ _ => 0) 1
      = simulate_cpu_go c2_params (fun _ _ => 0) 1 0
          (simulate_cpu_tick c2_params ((fun _ _ => (0 : ℚ)) 0)
            ⟨⟨fun _ => 0, setup_spikes 1 [fun _ => true], fun _ => 0⟩,
              fun _ _ => 0, [fun _ => true]⟩) :=
  (c10_carryover_spikes 1 c2_params (fun _ => 0) (fun _ => 0) (fun _ _ => 0)
    [fun _ => true] (fun _ _ => 0) 1).2.2.1 (by norm_num)

/-- Evaluation of the relay-neuron call `create_neuron()`: appends one neuron
with threshold 0, leak `np.inf`, reset 0, refractory period 0, refractory
state 0 and initial state 0, returning the new neuron id. -/
theorem create_neuron_default_eq (m : Model) :
    create_neuron_default m =
      ({ m with
          neuron_thresholds := m.neuron_thresholds ++ [.fin 0]
          neuron_leaks := m.neuron_leaks ++ [.inf]
          neuron_states := m.neuron_states ++ [.fin 0]
          neuron_reset_states := m.neuron_reset_states ++ [.fin 0]
          neuron_refractory_periods := m.neuron_refractory_periods ++ [0]
          neuron_refractory_periods_state :=
            m.neuron_refractory_periods_state ++ [0] },
        m.num_neurons) := by
  have h : m.num_neurons = (m.neuron_thresholds ++ [Qinf.fin 0]).length - 1 := by
    simp [Model.num_neurons]
  rw [h]
  rfl

/-- Closed form of the relay chain: `k` relay neurons with default
parameters, `k` unit-delay weight-1 non-learning synapses walking the chain,
and one final unit-delay synapse into `post` carrying the requested weight
and STDP flag. -/
theorem chainSynapse_spec (k : ℕ) :
    ∀ (m : Model) (pre post : ℤ) (w : PyVal) (stdp : Bool),
      chainSynapse m pre post w stdp k =
        { neuron_thresholds := m.neuron_thresholds ++ List.replicate k (.fin 0)
          neuron_leaks := m.neuron_leaks ++ List.replicate k .inf
          neuron_states := m.neuron_states ++ List.replicate k (.fin 0)
          neuron_reset_states := m.neuron_reset_states ++ List.replicate k (.fin 0)
          neuron_refractory_periods := m.neuron_refractory_periods ++ List.replicate k 0
          neuron_refractory_periods_state :=
            m.neuron_refractory_periods_state ++ List.replicate k 0
          pre_synaptic_neuron_ids := m.pre_synaptic_neuron_ids ++
            (pre :: (List.range k).map (fun j => ((m.num_neurons + j : ℕ) : ℤ)))
          post_synaptic_neuron_ids := m.post_synaptic_neuron_ids ++
            ((List.range k).map (fun j => ((m.num_neurons + j : ℕ) : ℤ)) ++ [post])
          synaptic_weights := m.synaptic_weights ++
            (List.replicate k (.float (.fin 1)) ++ [w])
          synaptic_delays := m.synaptic_delays ++ List.replicate (k + 1) 1
          enable_stdp := m.enable_stdp ++ (List.replicate k false ++ [stdp])
          input_spikes := m.input_spikes } := by
  induction k with
  | zero =>
    intro m pre post w stdp
    simp [chainSynapse, appendSynapse]
  | succ k ih =>
    intro m pre post w stdp
    have hstep : chainSynapse m pre post w stdp (k + 1) =
        chainSynapse (appendSynapse (create_neuron_default m).1 pre
          ((create_neuron_default m).2 : ℤ) (.float (.fin 1)) false)
          ((create_neuron_default m).2 : ℤ) post w stdp k := rfl
    rw [hstep, create_neuron_default_eq]
    dsimp only
    rw [ih]
    simp only [appendSynapse, Model.num_neurons, Model.mk.injEq, List.append_assoc,
      List.length_append, List.length_cons, List.length_nil, List.singleton_append,
      List.cons_append, List.replicate_succ, List.range_succ_eq_map, List.map_cons,
      List.map_map, Nat.add_zero, List.nil_append]
    have hfun : ((fun j : ℕ => ((m.neuron_thresholds.length + j : ℕ) : ℤ)) ∘ Nat.succ)
        = fun j : ℕ => ((m.neuron_thresholds.length + (0 + 1) + j : ℕ) : ℤ) := by
      funext j
      exact congrArg (fun x : ℕ => (x : ℤ)) (by omega)
    rw [hfun]
    simp

/-- Counterexample for C3: `create_synapse` with delay 2 on an empty model
creates its relay neuron with the `create_neuron()` default leak `np.inf`,
not leak 0 as the claim states. -/
theorem c3_relay_leak_counterexample :
    (∃ r, create_synapse Model.empty (.int 0) (.int 1) (.float (.fin 5)) (.int 2) true
        = .ok r ∧ r.1.neuron_leaks = [Qinf.inf]) ∧
    Qinf.inf ≠ Qinf.fin 0 := by
  constructor
  · refine ⟨(chainSynapse Model.empty 0 1 (.float (.fin 5)) true 1, 1), rfl, ?_⟩
    rfl
  · decide

/-- C3 (amended): every `create_synapse(pre, post, weight, delay,
stdp_enabled)` call with valid arguments and delay `d > 1` adds exactly
`d - 1` relay neurons, each with threshold 0, leak `np.inf` (the
`create_neuron()` default; the claim said leak 0), reset state 0, chained
from `pre` to `post` by `d` delay-1 synapses of which only the final synapse
into `post` carries the requested weight and STDP flag, the others having
weight 1.0 and STDP disabled; the returned synapse id is the final one. -/
theorem c3_delay_chain_amended :
    ∀ (m : Model) (pre post : ℤ) (w : PyVal) (d : ℤ) (stdp : Bool),
      0 ≤ pre → 0 ≤ post → isNumeric w = true → 1 < d →
      create_synapse m (.int pre) (.int post) w (.int d) stdp =
        .ok
          ({ neuron_thresholds := m.neuron_thresholds ++
              List.replicate (d - 1).toNat (.fin 0)
             neuron_leaks := m.neuron_leaks ++ List.replicate (d - 1).toNat .inf
             neuron_states := m.neuron_states ++ List.replicate (d - 1).toNat (.fin 0)
             neuron_reset_states := m.neuron_reset_states ++
              List.replicate (d - 1).toNat (.fin 0)
             neuron_refractory_periods := m.neuron_refractory_periods ++
              List.replicate (d - 1).toNat 0
             neuron_refractory_periods_state := m.neuron_refractory_periods_state ++
              List.replicate (d - 1).toNat 0
             pre_synaptic_neuron_ids := m.pre_synaptic_neuron_ids ++
              (pre :: (List.range (d - 1).toNat).map (fun j => ((m.num_neurons + j : ℕ) : ℤ)))
             post_synaptic_neuron_ids := m.post_synaptic_neuron_ids ++
              ((List.range (d - 1).toNat).map (fun j => ((m.num_neurons + j : ℕ) : ℤ))
                ++ [post])
             synaptic_weights := m.synaptic_weights ++
              (List.replicate (d - 1).toNat (.float (.fin 1)) ++ [w])
             synaptic_delays := m.synaptic_delays ++ List.replicate ((d - 1).toNat + 1) 1
             enable_stdp := m.enable_stdp ++ (List.replicate (d - 1).toNat false ++ [stdp])
             input_spikes := m.input_spikes },
            m.num_synapses + (d - 1).toNat) := by
  intro m pre post w d stdp hpre hpost hw hd
  have h1 : ¬ pre < 0 := not_lt.mpr hpre
  have h2 : ¬ post < 0 := not_lt.mpr hpost
  have h3 : ¬ d ≤ 0 := by omega
  have hcs : create_synapse m (.int pre) (.int post) w (.int d) stdp =
      .ok (chainSynapse m pre post w stdp (d - 1).toNat,
        (chainSynapse m pre post w stdp (d - 1).toNat).num_synapses - 1) := by
    unfold create_synapse
    rw [show checkIntArg m (.int pre) "pre_id must be int" = .ok pre from rfl,
      show checkIntArg m (.int post) "post_id must be int" = .ok post from rfl,
      show checkIntArg m (.int d) "delay must be an integer" = .ok d from rfl]
    rw [hw]
    simp only [ok_bind, if_neg h1, if_neg h2, if_neg h3]
    rfl
  rw [hcs, chainSynapse_spec]
  simp only [Except.ok.injEq, Prod.mk.injEq, Model.num_synapses, List.length_append,
    List.length_cons, List.length_map, List.length_range]
  refine ⟨trivial, ?_⟩
  omega

/-- Witness for C3 at a concrete instance: empty model, delay 3. -/
theorem c3_delay_chain_witness :
    (0 : ℤ) ≤ 0 ∧ (0 : ℤ) ≤ 1 ∧ isNumeric (.float (.fin 5)) = true ∧ (1 : ℤ) < 3 ∧
    create_synapse Model.empty (.int 0) (.int 1) (.float (.fin 5)) (.int 3) true =
      .ok
        ({ neuron_thresholds := Model.empty.neuron_thresholds ++
            List.replicate ((3 : ℤ) - 1).toNat (.fin 0)
           neuron_leaks := Model.empty.neuron_leaks ++
            List.replicate ((3 : ℤ) - 1).toNat .inf
           neuron_states := Model.empty.neuron_states ++
            List.replicate ((3 : ℤ) - 1).toNat (.fin 0)
           neuron_reset_states := Model.empty.neuron_reset_states ++
            List.replicate ((3 : ℤ) - 1).toNat (.fin 0)
           neuron_refractory_periods := Model.empty.neuron_refractory_periods ++
            List.replicate ((3 : ℤ) - 1).toNat 0
           neuron_refractory_periods_state :=
            Model.empty.neuron_refractory_periods_state ++
              List.replicate ((3 : ℤ) - 1).toNat 0
           pre_synaptic_neuron_ids := Model.empty.pre_synaptic_neuron_ids ++
            ((0 : ℤ) :: (List.range ((3 : ℤ) - 1).toNat).map
              (fun j => ((Model.empty.num_neurons + j : ℕ) : ℤ)))
           post_synaptic_neuron_ids := Model.empty.post_synaptic_neuron_ids ++
            ((List.range ((3 : ℤ) - 1).toNat).map
              (fun j => ((Model.empty.num_neurons + j : ℕ) : ℤ)) ++ [(1 : ℤ)])
           synaptic_weights := Model.empty.synaptic_weights ++
            (List.replicate ((3 : ℤ) - 1).toNat (.float (.fin 1)) ++ [.float (.fin 5)])
           synaptic_delays := Model.empty.synaptic_delays ++
            List.replicate (((3 : ℤ) - 1).toNat + 1) 1
           enable_stdp := Model.empty.enable_stdp ++
            (List.replicate ((3 : ℤ) - 1).toNat false ++ [true])
           input_spikes := Model.empty.input_spikes },
          Model.empty.num_synapses + ((3 : ℤ) - 1).toNat) :=
  ⟨by decide, by decide, rfl, by decide,
    c3_delay_chain_amended Model.empty 0 1 (.float (.fin 5)) 3 true
      (by decide) (by decide) rfl (by decide)⟩

/-- Indexing a reversed prefix: element `j` of `(A.take t).reverse` is
element `t - 1 - j` of `A`. -/
theorem take_reverse_getD (A : List ℚ) (t j : ℕ) (ht : t ≤ A.length) (hj : j < t) :
    ((A.take t).reverse).getD j 0 = A.getD (t - 1 - j) 0 := by
  have hlen : (A.take t).length = t := by
    simp [List.length_take, Nat.min_eq_left ht]
  rw [List.getD_eq_getElem?_getD, List.getD_eq_getElem?_getD]
  rw [List.getElem?_reverse (by rw [hlen]; exact hj)]
  rw [hlen]
  rw [List.getElem?_take]
  rw [if_pos (by omega : t - 1 - j < t)]

/-- Reindexing of the source STDP sum: summing the reversed coefficient
prefix against slice offsets `L - 1 - t + j` equals summing the coefficients
in lag order against offsets `L - 2 - i`. -/
theorem stdp_reindex (A : List ℚ) (t L : ℕ) (g : ℕ → ℚ) (ht : t ≤ A.length)
    (htL : t + 1 ≤ L) :
    ∑ j ∈ Finset.range t, ((A.take t).reverse).getD j 0 * g (L - 1 - t + j)
      = ∑ i ∈ Finset.range t, A.getD i 0 * g (L - 2 - i) := by
  rw [← Finset.sum_range_reflect (fun i => A.getD i 0 * g (L - 2 - i)) t]
  apply Finset.sum_congr rfl
  intro j hj
  rw [Finset.mem_range] at hj
  rw [take_reverse_getD A t j ht hj]
  congr 1
  congr 1
  omega

/-- C4: the per-tick STDP update of the reference cpu backend equals the
spec form: with `t_eff = min(K, logged ticks - 1)`, for each lag
`i < t_eff` (lag 0 = immediately preceding tick) it adds
`Apos[i] * coincidence * mask` when the positive update is enabled and
`Aneg[i] * (1 - coincidence) * mask` when the negative update is enabled;
shorter histories truncate the window (no zero padding, no error). -/
theorem c4_stdp_window_equiv :
    ∀ (n K : ℕ) (Apos Aneg : List ℚ) (doPos doNeg : Bool)
      (mask : Fin n → Fin n → ℚ) (train : List (Fin n → Bool))
      (W : Fin n → Fin n → ℚ),
      Apos.length = K → Aneg.length = K →
      stdp_cpu K Apos Aneg doPos doNeg mask train W
        = stdp_spec K Apos Aneg doPos doNeg mask train W := by
  intro n K Apos Aneg doPos doNeg mask train W hA hB
  unfold stdp_cpu stdp_spec
  dsimp only
  by_cases ht0 : 0 < min K (train.length - 1)
  swap
  · have ht' : min K (train.length - 1) = 0 := by omega
    rw [ht']
    funext p q
    simp
  · have htK : min K (train.length - 1) ≤ K := Nat.min_le_left _ _
    have htL1 : min K (train.length - 1) ≤ train.length - 1 := Nat.min_le_right _ _
    have htL : min K (train.length - 1) + 1 ≤ train.length := by omega
    have hApos : min K (train.length - 1) ≤ Apos.length := by omega
    have hAneg : min K (train.length - 1) ≤ Aneg.length := by omega
    have hdec : decide (0 < min K (train.length - 1)) = true := decide_eq_true ht0
    cases doPos <;> cases doNeg
    · funext p q
      simp
    · simp only [hdec, Bool.false_or, Bool.true_and, Bool.false_eq_true,
        eq_self_iff_true, if_true, if_false]
      funext p q
      rw [Finset.sum_mul]
      simp only [Bool.false_eq_true, if_false, if_true, eq_self_iff_true, zero_add]
      congr 1
      simp only [mul_assoc]
      exact stdp_reindex Aneg (min K (train.length - 1)) train.length
        (fun idx => (1 - b2q (train.getD idx (zf n) p)
            * b2q (train.getD (train.length - 1) (zf n) q)) * mask p q)
        hAneg htL
    · simp only [hdec, Bool.true_or, Bool.true_and, Bool.false_eq_true,
        eq_self_iff_true, if_true, if_false]
      funext p q
      rw [Finset.sum_mul]
      simp only [Bool.false_eq_true, if_false, if_true, eq_self_iff_true, add_zero]
      congr 1
      simp only [mul_assoc]
      exact stdp_reindex Apos (min K (train.length - 1)) train.length
        (fun idx => b2q (train.getD idx (zf n) p)
            * (b2q (train.getD (train.length - 1) (zf n) q) * mask p q))
        hApos htL
    · simp only [hdec, Bool.true_or, Bool.true_and, eq_self_iff_true, if_true]
      funext p q
      rw [Finset.sum_mul, Finset.sum_mul, Finset.sum_add_distrib, add_assoc]
      congr 1
      congr 1
      · simp only [mul_assoc]
        exact stdp_reindex Apos (min K (train.length - 1)) train.length
          (fun idx => b2q (train.getD idx (zf n) p)
              * (b2q (train.getD (train.length - 1) (zf n) q) * mask p q))
          hApos htL
      · simp only [mul_assoc]
        exact stdp_reindex Aneg (min K (train.length - 1)) train.length
          (fun idx => (1 - b2q (train.getD idx (zf n) p)
              * b2q (train.getD (train.length - 1) (zf n) q)) * mask p q)
          hAneg htL

/-- Witness for C4 at a concrete instance: window 1, two logged ticks. -/
theorem c4_stdp_window_witness :
    ([(2 : ℚ)] : List ℚ).length = 1 ∧ ([(3 : ℚ)] : List ℚ).length = 1 ∧
    stdp_cpu 1 [2] [3] true true (fun _ _ => 1)
        [(fun _ : Fin 1 => true), (fun _ : Fin 1 => true)] (fun _ _ => (0 : ℚ))
      = stdp_spec 1 [2] [3] true true (fun _ _ => 1)
        [(fun _ : Fin 1 => true), (fun _ : Fin 1 => true)] (fun _ _ => (0 : ℚ)) :=
  ⟨rfl, rfl,
    c4_stdp_window_equiv 1 1 [2] [3] true true (fun _ _ => 1)
      [(fun _ : Fin 1 => true), (fun _ : Fin 1 => true)] (fun _ _ => (0 : ℚ)) rfl rfl⟩

end SuperNeuroMat
